import Mathlib

/-!
A shallow embedding of the `actix-mw` crate: the generic middleware
pipeline of `src/lib.rs` (the `Handler` capability, `Middleware::call`,
the three-armed `HandlerFuture`, and `match_uri`) and the concrete CSRF
handler of `src/csrf.rs` (token minting, token verification, the
`skip`/`process`/`post` implementation).

Modelling conventions:
* machine integers become `Nat`/`Int` with explicit `% 2 ^ w` where the
  Rust code relies on fixed-width behaviour (`i64::to_le_bytes`,
  `i64::from_le_bytes`);
* byte strings (`&[u8]`, `Vec<u8>`) become `List Nat` whose elements are
  intended to lie below 256;
* the SHA-256 digest (`sha2::Sha256::digest`, an external crate) is a
  parameter `d : List Nat → List Nat`; the property `DigestModel d`
  records the two facts the code relies on: the digest is 32 bytes long
  and its entries are bytes;
* the wall clock (`chrono::Utc::now().timestamp_millis()`) is a
  parameter `now : Int` threaded to each operation that reads it;
* `chrono::Duration` values are modelled by their signed length in
  milliseconds, the unit in which the code compares them; the `i64`
  subtraction producing the token's age wraps on overflow, as the
  release profile does;
* fallible operations (`hex::decode`, `HeaderValue::to_str`) return
  `Option`.
-/

namespace ActixMW

/-! ## Little-endian 64-bit encoding (`i64::to_le_bytes` / `from_le_bytes`) -/

/-- `k` little-endian base-256 digits of `n` (the layout of
`to_le_bytes`). -/
def natLeBytes : Nat → Nat → List Nat
  | 0, _ => []
  | k + 1, n => n % 256 :: natLeBytes k (n / 256)

/-- `i64::to_le_bytes`: the 8 little-endian bytes of the two's-complement
representation of `t`. -/
def leBytes64 (t : Int) : List Nat :=
  natLeBytes 8 (t % (2 ^ 64 : Int)).toNat

/-- Recombine little-endian bytes into the unsigned value they encode. -/
def leUnsigned (bs : List Nat) : Nat :=
  bs.foldr (fun b acc => acc * 256 + b) 0

/-- `i64::from_le_bytes`: read 8 little-endian bytes as a signed 64-bit
integer (two's complement). -/
def fromLeSigned (bs : List Nat) : Int :=
  let u := leUnsigned bs
  if u < 2 ^ 63 then (u : Int) else (u : Int) - 2 ^ 64

theorem natLeBytes_length (k n : Nat) : (natLeBytes k n).length = k := by
  induction k generalizing n with
  | zero => rfl
  | succ k ih => simp [natLeBytes, ih]

theorem natLeBytes_lt (k n : Nat) : ∀ b ∈ natLeBytes k n, b < 256 := by
  induction k generalizing n with
  | zero => intro b hb; simp [natLeBytes] at hb
  | succ k ih =>
    intro b hb
    simp only [natLeBytes, List.mem_cons] at hb
    rcases hb with h | h
    · omega
    · exact ih _ _ h

theorem leUnsigned_natLeBytes (k n : Nat) :
    leUnsigned (natLeBytes k n) = n % 256 ^ k := by
  induction k generalizing n with
  | zero => simp [natLeBytes, leUnsigned, Nat.mod_one]
  | succ k ih =>
    have hkk : (256 : Nat) ^ (k + 1) = 256 * 256 ^ k := by ring
    simp only [natLeBytes, leUnsigned, List.foldr_cons] at *
    rw [ih, hkk, Nat.mod_mul]
    ring

theorem leBytes64_length (t : Int) : (leBytes64 t).length = 8 :=
  natLeBytes_length 8 _

theorem leBytes64_lt (t : Int) : ∀ b ∈ leBytes64 t, b < 256 :=
  natLeBytes_lt 8 _

/-- Round trip of the two's-complement encoding on the `i64` range. -/
theorem fromLeSigned_leBytes64 (t : Int) (h1 : -(2 ^ 63) ≤ t)
    (h2 : t < 2 ^ 63) : fromLeSigned (leBytes64 t) = t := by
  have hmod : t % (2 ^ 64 : Int) = if 0 ≤ t then t else t + 2 ^ 64 := by
    split
    · exact Int.emod_eq_of_lt (by assumption) (by omega)
    · have : (t + 2 ^ 64) % (2 ^ 64 : Int) = t % (2 ^ 64 : Int) := by
        omega
      rw [← this]
      exact Int.emod_eq_of_lt (by omega) (by omega)
  have hlt : (t % (2 ^ 64 : Int)).toNat < 256 ^ 8 := by
    have : (256 : Nat) ^ 8 = 2 ^ 64 := by norm_num
    rw [this]
    rcases le_or_lt 0 t with h | h <;> simp [hmod, h] <;> omega
  unfold fromLeSigned leBytes64
  rw [leUnsigned_natLeBytes, Nat.mod_eq_of_lt hlt]
  rcases le_or_lt 0 t with h | h
  · simp only [hmod, if_pos h]
    rw [if_pos] <;> omega
  · simp only [hmod, if_neg (by omega : ¬ 0 ≤ t)]
    rw [if_neg] <;> omega

/-! ## Hexadecimal codec (`hex::encode` / `hex::decode`) -/

/-- Lowercase hexadecimal digit for `n < 16` (`hex::encode` output
alphabet). -/
def hexDigit (n : Nat) : Char :=
  if n < 10 then Char.ofNat (48 + n) else Char.ofNat (87 + n)

/-- `hex::encode`: two lowercase hex characters per byte, high nibble
first. -/
def hexEncode (bs : List Nat) : String :=
  ⟨(bs.map (fun b => [hexDigit (b / 16), hexDigit (b % 16)])).flatten⟩

/-- Value of one hex character (`hex::decode` accepts both cases). -/
def hexDigitVal (c : Char) : Option Nat :=
  if 48 ≤ c.toNat ∧ c.toNat ≤ 57 then some (c.toNat - 48)
  else if 97 ≤ c.toNat ∧ c.toNat ≤ 102 then some (c.toNat - 87)
  else if 65 ≤ c.toNat ∧ c.toNat ≤ 70 then some (c.toNat - 55)
  else none

/-- `hex::decode` on the character list of the input: fails on an odd
length or on any non-hex character. -/
def hexDecodeChars : List Char → Option (List Nat)
  | [] => some []
  | [_] => none
  | c1 :: c2 :: rest => do
    let hi ← hexDigitVal c1
    let lo ← hexDigitVal c2
    let tail ← hexDecodeChars rest
    pure ((hi * 16 + lo) :: tail)

theorem hexDigitVal_hexDigit : ∀ n < 16, hexDigitVal (hexDigit n) = some n := by
  decide

/-- Decoding inverts encoding on genuine byte lists. -/
theorem hexDecodeChars_hexEncode (bs : List Nat) (h : ∀ b ∈ bs, b < 256) :
    hexDecodeChars (hexEncode bs).data = some bs := by
  induction bs with
  | nil => rfl
  | cons b bs ih =>
    have hb : b < 256 := h b (by simp)
    have hhi : b / 16 < 16 := by omega
    have hlo : b % 16 < 16 := by omega
    have htail := ih (fun x hx => h x (by simp [hx]))
    simp only [hexEncode, List.map_cons, List.flatten] at *
    simp only [hexDecodeChars, hexDigitVal_hexDigit _ hhi,
      hexDigitVal_hexDigit _ hlo, htail, Option.bind_eq_bind,
      Option.some_bind]
    have : b / 16 * 16 + b % 16 = b := by omega
    simp [this, htail]

/-! ## Token codec (`CSRF::token`, `CSRF::verify_token`) -/

/-- The two facts `csrf.rs` relies on about `sha2::Sha256::digest`: the
output is 32 bytes long and each entry is a byte. -/
def DigestModel (d : List Nat → List Nat) : Prop :=
  ∀ s : List Nat, (d s).length = 32 ∧ ∀ b ∈ d s, b < 256

/-- The `CSRF` configuration: exempt urls, secret bytes, validity window
in milliseconds, header name. -/
structure CSRF where
  skip_urls : List String
  salt : List Nat
  effective : Int
  header_name : String

/-- `CSRF::token`: hex encoding of the 8 little-endian timestamp bytes
followed by the 32-byte digest of (timestamp bytes ‖ salt bytes).
`d` models `sha2::Sha256::digest`, `salt` the secret's bytes, `now` the
result of `chrono::Utc::now().timestamp_millis()`. -/
def CSRF.token (d : List Nat → List Nat) (salt : List Nat) (now : Int) :
    String :=
  let nowBytes := leBytes64 now
  let src := nowBytes ++ salt
  let hash := d src
  hexEncode (nowBytes ++ hash)

/-- `CSRF::generate_token`: mint with the instance's salt. -/
def CSRF.generate_token (c : CSRF) (d : List Nat → List Nat)
    (now : Int) : String :=
  CSRF.token d c.salt now

/-- Two's-complement wrap into the `i64` range, the release-mode result
of an overflowing `i64` subtraction. -/
def wrapI64 (x : Int) : Int :=
  (x + 2 ^ 63) % 2 ^ 64 - 2 ^ 63

/-- `CSRF::verify_token` with the clock passed in as `now` (the
`effective` duration is the instance's, in milliseconds): hex-decode,
check length 40, read the little-endian timestamp, reject future stamps,
reject stamps older than `effective`, and compare the recomputed digest
with bytes 8..40. The age `now - generate_time` is computed by `i64`
subtraction: when the true difference reaches `2 ^ 63` it wraps (release
profile; a debug build panics at the same spot, and in neither profile
does the function return `false` here), so the expiry comparison sees
the wrapped value. -/
def CSRF.verify_token (c : CSRF) (d : List Nat → List Nat) (now : Int)
    (test_token : String) : Bool :=
  match hexDecodeChars test_token.data with
  | none => false
  | some bytes =>
    if bytes.length ≠ 40 then false
    else
      let generate_time := fromLeSigned (bytes.take 8)
      if now < generate_time then false
      else if wrapI64 (now - generate_time) > c.effective then false
      else
        let hash := d (bytes.take 8 ++ c.salt)
        hash == bytes.drop 8

/-! ## Requests, responses and headers

`ServiceRequest` keeps the two observables the crate reads: the path and
the header map, a header value being raw bytes (`HeaderValue`).
`ServiceResponse` keeps status code, body and header map; response header
values are the strings the crate inserts. -/

structure ServiceRequest where
  path : String
  headers : List (String × List Nat)
deriving Repr, DecidableEq

structure ServiceResponse where
  status : Nat
  body : String
  headers : List (String × String)
deriving Repr, DecidableEq

/-- `HeaderMap::get`: first value stored under `name`. -/
def getHeader (hs : List (String × List Nat)) (name : String) :
    Option (List Nat) :=
  (hs.find? (fun p => p.fst == name)).map Prod.snd

/-- `HeaderValue::to_str`: succeeds iff every byte is visible ASCII
(32–126) or horizontal tab. -/
def headerValueToStr (bs : List Nat) : Option String :=
  if bs.all (fun b => (decide (32 ≤ b) && decide (b < 127)) || b == 9) then
    some ⟨bs.map Char.ofNat⟩
  else none

/-- `HeaderValue::from_str` validity on a string's characters: every
character must be a byte that is ≥ 32 and ≠ 127, or a tab. -/
def headerValueOk (s : String) : Bool :=
  s.data.all (fun c =>
    (decide (32 ≤ c.toNat) && decide (c.toNat ≠ 127)) || c.toNat == 9)

/-- `HeaderMap::insert`: stores `val` under `name`, replacing any values
previously stored under that name. -/
def insertHeader (hs : List (String × String)) (name val : String) :
    List (String × String) :=
  (name, val) :: hs.filter (fun p => !(p.fst == name))

/-- First response-header value stored under `name`. -/
def getRespHeader (resp : ServiceResponse) (name : String) :
    Option String :=
  (resp.headers.find? (fun p => p.fst == name)).map Prod.snd

/-- `HttpResponse::Forbidden().body("Forbidden")`. -/
def forbiddenResponse : ServiceResponse :=
  { status := 403, body := "Forbidden", headers := [] }

/-- `HttpResponse::InternalServerError().body("InternalServerError")`. -/
def internalErrorResponse : ServiceResponse :=
  { status := 500, body := "InternalServerError", headers := [] }

/-- `StatusCode::is_success`: the 2xx class. -/
def isSuccess (status : Nat) : Bool :=
  decide (200 ≤ status) && decide (status < 300)

/-! ## `match_uri` (`src/lib.rs`) and the CSRF handler -/

/-- `match_uri`: exact equality, or `check` followed by the `/` boundary
is a prefix of `uri` (`starts_with` modelled on character lists). -/
def match_uri (uri check : String) : Bool :=
  uri == check || List.isPrefixOf (check.data ++ [Char.ofNat 47]) uri.data

/-- `CSRF::skip`: true iff some exempt url matches the request path. -/
def CSRF.skip (c : CSRF) (req : ServiceRequest) : Bool :=
  c.skip_urls.any (fun url => match_uri req.path url)

/-- `CSRF::process`: look the configured header up; absent, unreadable or
unverifiable values short-circuit with 403 "Forbidden"; a verified value
admits the request unchanged. `Sum.inl` is `Either::Left` (a response),
`Sum.inr` is `Either::Right` (the forwarded request). -/
def CSRF.process (c : CSRF) (d : List Nat → List Nat) (now : Int)
    (req : ServiceRequest) : Sum ServiceResponse ServiceRequest :=
  match getHeader req.headers c.header_name with
  | some raw =>
    match headerValueToStr raw with
    | some token =>
      if c.verify_token d now token then Sum.inr req
      else Sum.inl forbiddenResponse
    | none => Sum.inl forbiddenResponse
  | none => Sum.inl forbiddenResponse

/-- `CSRF::post`: on a 2xx status mint a fresh token and insert it under
the configured header name, falling back to a 500 response if the token
is not a valid header value; other statuses pass through unchanged. -/
def CSRF.post (c : CSRF) (d : List Nat → List Nat) (now : Int)
    (resp : ServiceResponse) : ServiceResponse :=
  if isSuccess resp.status then
    let token := c.generate_token d now
    if headerValueOk token then
      { resp with headers := insertHeader resp.headers c.header_name token }
    else internalErrorResponse
  else resp

/-! ## Pipeline (`src/lib.rs`)

The `Handler` trait becomes a structure of the three capabilities; the
digest and the clock are already applied, so each capability is a plain
function. An inner service future is modelled by its observable poll
outcome (`Poll::Pending` or `Poll::Ready(Result<..>)`); the immediately
ready future the reject branch boxes is `Poll.ready` by construction. -/

/-- `actix_web::Error`, kept opaque: the pipeline only relays it. -/
structure PipeError where
  code : Nat
deriving Repr, DecidableEq

/-- `std::task::Poll`. -/
inductive Poll (α : Type) where
  | ready (a : α)
  | pending
deriving Repr, DecidableEq

/-- Outcome of polling a service future (`Result<ServiceResponse, Error>`
under a `Poll`). -/
abbrev PollResult := Poll (Except PipeError ServiceResponse)

/-- The `Handler` trait: `skip` and `post` have defaults in the source;
here every implementation carries all three capabilities. -/
structure Handler where
  skip : ServiceRequest → Bool
  process : ServiceRequest → Sum ServiceResponse ServiceRequest
  post : ServiceResponse → ServiceResponse

/-- The three-armed `HandlerFuture` enum: pass-through (`SkipFuture`),
forward then post-process (`HandlerFuture`), short-circuit then
post-process (`ErrorHandlerFuture`). -/
inductive HandlerFuture where
  | skipFuture (fut : PollResult)
  | handlerFuture (fut : PollResult) (inner : Handler)
  | errorHandlerFuture (fut : PollResult) (inner : Handler)

/-- `Middleware::call`: consult `skip`; on skip delegate the request to
the inner service; otherwise run `process` and pick the short-circuit arm
(with an already-ready future holding the reject response) or the forward
arm (with the inner service's future on the forwarded request). -/
def Middleware.call (inner : Handler)
    (service : ServiceRequest → PollResult) (req : ServiceRequest) :
    HandlerFuture :=
  if inner.skip req then
    HandlerFuture.skipFuture (service req)
  else
    match inner.process req with
    | Sum.inl res =>
      HandlerFuture.errorHandlerFuture (Poll.ready (Except.ok res)) inner
    | Sum.inr req2 => HandlerFuture.handlerFuture (service req2) inner

/-- `HandlerFuture::poll`: the skip arm relays the inner result verbatim;
the two other arms apply `post` to a ready `Ok` response; a ready `Err`
and `Pending` are relayed as they are (`ready!` / `?`). -/
def HandlerFuture.poll : HandlerFuture → PollResult
  | HandlerFuture.skipFuture fut => fut
  | HandlerFuture.handlerFuture fut inner =>
    match fut with
    | Poll.pending => Poll.pending
    | Poll.ready (Except.error e) => Poll.ready (Except.error e)
    | Poll.ready (Except.ok r) => Poll.ready (Except.ok (inner.post r))
  | HandlerFuture.errorHandlerFuture fut inner =>
    match fut with
    | Poll.pending => Poll.pending
    | Poll.ready (Except.error e) => Poll.ready (Except.error e)
    | Poll.ready (Except.ok r) => Poll.ready (Except.ok (inner.post r))

/-- The CSRF handler, packaged as the `Handler` capability it implements
(`impl Handler<BoxBody> for CSRF`), at digest `d` and clock `now`. -/
def CSRF.asHandler (c : CSRF) (d : List Nat → List Nat) (now : Int) :
    Handler :=
  { skip := c.skip, process := c.process d now, post := c.post d now }

/-! ## Shared lemmas and concrete fixtures -/

/-- A stand-in digest used by the concrete witnesses: constant 32 zero
bytes. -/
def dHash : List Nat → List Nat := fun _ => List.replicate 32 0

theorem dHash_model : DigestModel dHash := by
  intro s
  refine ⟨List.length_replicate 32 0, ?_⟩
  intro b hb
  have := List.eq_of_mem_replicate hb
  omega

/-- A concrete configuration used by the witnesses. -/
def cFix : CSRF :=
  { skip_urls := [], salt := [115], effective := 1000,
    header_name := "x-token" }

/-- Hex-decoding a minted token recovers its 40 bytes: the timestamp
bytes followed by the digest. -/
theorem token_decode (d : List Nat → List Nat) (salt : List Nat)
    (t : Int) (hd : DigestModel d) :
    hexDecodeChars (CSRF.token d salt t).data
      = some (leBytes64 t ++ d (leBytes64 t ++ salt)) := by
  unfold CSRF.token
  refine hexDecodeChars_hexEncode _ ?_
  intro b hb
  rcases List.mem_append.mp hb with h | h
  · exact leBytes64_lt t b h
  · exact (hd _).2 b h

/-- On arguments inside the `i64` range the wrap is the identity. -/
theorem wrapI64_eq_of_range (x : Int) (h1 : -(2 ^ 63) ≤ x)
    (h2 : x < 2 ^ 63) : wrapI64 x = x := by
  unfold wrapI64
  rw [Int.emod_eq_of_lt (by omega) (by omega)]
  omega

/-- A token minted at `t` verifies at any `now` within the window whose
distance to `t` fits in `i64`. -/
theorem verify_token_minted (c : CSRF) (d : List Nat → List Nat)
    (t now : Int) (hd : DigestModel d) (h1 : -(2 ^ 63) ≤ t)
    (h2 : t < 2 ^ 63) (hle : t ≤ now) (hage : now - t ≤ c.effective)
    (hfit : now - t < 2 ^ 63) :
    c.verify_token d now (CSRF.token d c.salt t) = true := by
  have hdec := token_decode d c.salt t hd
  have hlen : (leBytes64 t ++ d (leBytes64 t ++ c.salt)).length = 40 := by
    simp [List.length_append, leBytes64_length, (hd _).1]
  have htake : (leBytes64 t ++ d (leBytes64 t ++ c.salt)).take 8
      = leBytes64 t := by
    have h8 := leBytes64_length t
    rw [← h8, List.take_left]
  have hdrop : (leBytes64 t ++ d (leBytes64 t ++ c.salt)).drop 8
      = d (leBytes64 t ++ c.salt) := by
    have h8 := leBytes64_length t
    rw [← h8, List.drop_left]
  unfold CSRF.verify_token
  rw [hdec]
  simp only [hlen, htake, hdrop, fromLeSigned_leBytes64 t h1 h2,
    wrapI64_eq_of_range (now - t) (by omega) hfit]
  rw [if_neg (by omega : ¬ (40 : Nat) ≠ 40), if_neg (by omega),
    if_neg (by omega)]
  exact beq_self_eq_true _

/-- C1: for every secret and every non-negative validity window, a token
minted by `CSRF::token` (via `generate_token`) verifies successfully when
`verify_token` runs at the same current time. -/
theorem claim_token_roundtrip (c : CSRF) (d : List Nat → List Nat)
    (t : Int) (hd : DigestModel d) (h1 : -(2 ^ 63) ≤ t)
    (h2 : t < 2 ^ 63) (hw : 0 ≤ c.effective) :
    c.verify_token d t (c.generate_token d t) = true :=
  verify_token_minted c d t t hd h1 h2 le_rfl (by omega) (by omega)

/-- C1 witness: the round trip at a concrete configuration and time. -/
theorem claim_token_roundtrip_witness :
    cFix.verify_token dHash 5 (cFix.generate_token dHash 5) = true :=
  claim_token_roundtrip cFix dHash 5 dHash_model (by norm_num)
    (by norm_num) (by decide)

/-- A token minted at `t` is rejected at any `now` past the window as
long as its age still fits in `i64`. -/
theorem verify_token_minted_expired (c : CSRF) (d : List Nat → List Nat)
    (t now : Int) (hd : DigestModel d) (h1 : -(2 ^ 63) ≤ t)
    (h2 : t < 2 ^ 63) (hle : t ≤ now) (hage : now - t > c.effective)
    (hfit : now - t < 2 ^ 63) :
    c.verify_token d now (CSRF.token d c.salt t) = false := by
  have hdec := token_decode d c.salt t hd
  have hlen : (leBytes64 t ++ d (leBytes64 t ++ c.salt)).length = 40 := by
    simp [List.length_append, leBytes64_length, (hd _).1]
  have htake : (leBytes64 t ++ d (leBytes64 t ++ c.salt)).take 8
      = leBytes64 t := by
    have h8 := leBytes64_length t
    rw [← h8, List.take_left]
  unfold CSRF.verify_token
  rw [hdec]
  simp only [hlen, htake, fromLeSigned_leBytes64 t h1 h2,
    wrapI64_eq_of_range (now - t) (by omega) hfit]
  rw [if_neg (by omega : ¬ (40 : Nat) ≠ 40), if_neg (by omega),
    if_pos (by omega)]

/-- The widest constructible window: `i64::MAX` milliseconds. -/
def cMax : CSRF :=
  { skip_urls := [], salt := [115], effective := 2 ^ 63 - 1,
    header_name := "x-token" }

/-- C2 counterexample: with window `i64::MAX` ms, the genuine token
stamped at millisecond `-1` is *accepted* when verified at
`t + window + 1 = 2 ^ 63 - 1` — the `i64` subtraction `now -
generate_time` wraps to `-2 ^ 63`, slipping past the expiry check —
where the claim demands rejection for every validity window. -/
theorem claim_expiry_boundary_counterexample :
    cMax.verify_token dHash ((-1) + cMax.effective + 1)
      (CSRF.token dHash cMax.salt (-1)) = true := by
  decide

/-- C2 amended: a well-formed token stamped `t` is accepted when
verified at current time `t + window` (boundary inclusive) and rejected
at `t + window + 1` milliseconds, provided the age `window + 1` still
fits in `i64`; at `window = i64::MAX` the age subtraction overflows
instead of rejecting. -/
theorem claim_expiry_boundary_amended (c : CSRF)
    (d : List Nat → List Nat) (t : Int) (hd : DigestModel d)
    (h1 : -(2 ^ 63) ≤ t) (h2 : t < 2 ^ 63) (hw : 0 ≤ c.effective)
    (hfit : c.effective + 1 < 2 ^ 63) :
    c.verify_token d (t + c.effective) (CSRF.token d c.salt t) = true ∧
    c.verify_token d (t + c.effective + 1) (CSRF.token d c.salt t)
      = false :=
  ⟨verify_token_minted c d t (t + c.effective) hd h1 h2 (by omega)
      (by omega) (by omega),
    verify_token_minted_expired c d t (t + c.effective + 1) hd h1 h2
      (by omega) (by omega) (by omega)⟩

/-- C2 witness: boundary acceptance and one-millisecond-late rejection
at a concrete configuration whose window fits `i64`. -/
theorem claim_expiry_boundary_amended_witness :
    cFix.verify_token dHash (5 + cFix.effective)
        (CSRF.token dHash cFix.salt 5) = true ∧
    cFix.verify_token dHash (5 + cFix.effective + 1)
        (CSRF.token dHash cFix.salt 5) = false :=
  claim_expiry_boundary_amended cFix dHash 5 dHash_model (by norm_num)
    (by norm_num) (by decide) (by decide)

/-- C3: a candidate whose embedded little-endian timestamp exceeds the
verifier's clock is rejected whatever the digest bytes hold. -/
theorem claim_future_reject (c : CSRF) (d : List Nat → List Nat)
    (now : Int) (s : String) (bs : List Nat)
    (hdec : hexDecodeChars s.data = some bs) (hlen : bs.length = 40)
    (hfut : now < fromLeSigned (bs.take 8)) :
    c.verify_token d now s = false := by
  unfold CSRF.verify_token
  rw [hdec]
  simp only [hlen]
  rw [if_neg (by omega : ¬ (40 : Nat) ≠ 40), if_pos hfut]

/-- C3 witness: a token stamped at millisecond 1 is rejected by a
verifier whose clock reads 0, though its digest is correct. -/
theorem claim_future_reject_witness :
    cFix.verify_token dHash 0 (CSRF.token dHash cFix.salt 1) = false :=
  claim_future_reject cFix dHash 0 (CSRF.token dHash cFix.salt 1)
    (leBytes64 1 ++ dHash (leBytes64 1 ++ cFix.salt))
    (token_decode dHash cFix.salt 1 dHash_model) (by decide) (by decide)

/-- C8: `verify_token` is a total function into `Bool`, and any input
that is not valid hexadecimal, or whose decoding is not exactly 40 bytes
long, yields `false`. -/
theorem claim_malformed_reject (c : CSRF) (d : List Nat → List Nat)
    (now : Int) (s : String)
    (h : hexDecodeChars s.data = none ∨
      ∃ bs, hexDecodeChars s.data = some bs ∧ bs.length ≠ 40) :
    c.verify_token d now s = false := by
  unfold CSRF.verify_token
  rcases h with h | ⟨bs, hdec, hlen⟩
  · rw [h]
  · rw [hdec]
    simp only [if_pos hlen]

/-- C8 witness: a non-hex string and a short hex string are both
rejected. -/
theorem claim_malformed_reject_witness :
    cFix.verify_token dHash 0 "zz" = false ∧
    cFix.verify_token dHash 0 "00ff" = false :=
  ⟨claim_malformed_reject cFix dHash 0 "zz" (Or.inl (by decide)),
    claim_malformed_reject cFix dHash 0 "00ff"
      (Or.inr ⟨[0, 255], by decide, by decide⟩)⟩

/-- C4: `process` admits the request unchanged exactly when the
configured header is present, readable as text, and carries a verifying
token; in every other case it rejects with the 403 "Forbidden"
response. -/
theorem claim_process_spec (c : CSRF) (d : List Nat → List Nat)
    (now : Int) (req : ServiceRequest) :
    (c.process d now req = Sum.inr req ∨
      c.process d now req = Sum.inl forbiddenResponse) ∧
    forbiddenResponse.status = 403 ∧
    forbiddenResponse.body = "Forbidden" ∧
    (c.process d now req = Sum.inr req ↔
      ∃ raw token, getHeader req.headers c.header_name = some raw ∧
        headerValueToStr raw = some token ∧
        c.verify_token d now token = true) := by
  unfold CSRF.process
  cases hh : getHeader req.headers c.header_name with
  | none => simp [hh, forbiddenResponse]
  | some raw =>
    cases hs : headerValueToStr raw with
    | none => simp [hh, hs, forbiddenResponse]
    | some token =>
      by_cases hv : c.verify_token d now token = true <;>
        simp [hh, hs, hv, forbiddenResponse]

/-- A concrete 200 response used by the witnesses. -/
def respOk : ServiceResponse := { status := 200, body := "ok", headers := [] }

/-- C5: `post` on a 2xx response inserts a freshly minted token under the
configured header name (overwriting previous values, so a lookup yields
the fresh token), degrades to the 500 "InternalServerError" response when
the minted token is not a valid header value, and passes any non-2xx
response through unchanged. -/
theorem claim_post_spec (c : CSRF) (d : List Nat → List Nat) (now : Int)
    (resp : ServiceResponse) :
    internalErrorResponse.status = 500 ∧
    internalErrorResponse.body = "InternalServerError" ∧
    (isSuccess resp.status = false → c.post d now resp = resp) ∧
    (isSuccess resp.status = true →
      (headerValueOk (c.generate_token d now) = true →
        c.post d now resp =
          { resp with headers := (insertHeader resp.headers c.header_name
              (c.generate_token d now)) } ∧
        getRespHeader (c.post d now resp) c.header_name
          = some (c.generate_token d now)) ∧
      (headerValueOk (c.generate_token d now) = false →
        c.post d now resp = internalErrorResponse)) := by
  refine ⟨rfl, rfl, ?_, ?_⟩
  · intro hfail
    unfold CSRF.post
    simp [hfail]
  · intro hok
    constructor
    · intro hval
      constructor
      · unfold CSRF.post
        simp [hok, hval]
      · unfold CSRF.post
        simp only [hok, hval, if_pos rfl, if_true]
        simp [getRespHeader, insertHeader, List.find?]
    · intro hval
      unfold CSRF.post
      simp [hok, hval]

/-- C5 witness: at a concrete configuration, a 200 response gets the
fresh token header, and a 404 response passes through unchanged. -/
theorem claim_post_spec_witness :
    cFix.post dHash 0 respOk =
      { respOk with headers := (insertHeader respOk.headers
          cFix.header_name (cFix.generate_token dHash 0)) } ∧
    cFix.post dHash 0 { respOk with status := 404 } =
      { respOk with status := 404 } :=
  ⟨(((claim_post_spec cFix dHash 0 respOk).2.2.2 (by decide)).1
      (by decide)).1,
    (claim_post_spec cFix dHash 0 { respOk with status := 404 }).2.2.1
      (by decide)⟩

/-- `match_uri` holds exactly on equality or on extension past a `/`
boundary. -/
theorem match_uri_iff (uri check : String) :
    match_uri uri check = true ↔
      uri = check ∨ ∃ rest : String, uri = check ++ "/" ++ rest := by
  unfold match_uri
  rw [Bool.or_eq_true, beq_iff_eq, List.isPrefixOf_iff_prefix]
  constructor
  · rintro (h | ⟨t, ht⟩)
    · exact Or.inl h
    · refine Or.inr ⟨⟨t⟩, ?_⟩
      refine String.ext ?_
      rw [String.data_append, String.data_append]
      simpa using ht.symm
  · rintro (h | ⟨rest, hrest⟩)
    · exact Or.inl h
    · refine Or.inr ⟨rest.data, ?_⟩
      rw [hrest, String.data_append, String.data_append]

/-- The exempt-list configuration of the spec's path-matching example. -/
def cHealth : CSRF :=
  { skip_urls := ["/health"], salt := [], effective := 0,
    header_name := "x-token" }

/-- C6: `skip` holds exactly when the path equals an exempt entry or
extends one past a `/` separator; in particular, with exempt list
`["/health"]`, `/health` and `/health/live` are skipped while
`/healthcheck` is not. -/
theorem claim_skip_matching :
    (∀ (c : CSRF) (req : ServiceRequest),
      c.skip req = true ↔
        ∃ url ∈ c.skip_urls, req.path = url ∨
          ∃ rest : String, req.path = url ++ "/" ++ rest) ∧
    CSRF.skip cHealth { path := "/health", headers := [] } = true ∧
    CSRF.skip cHealth { path := "/health/live", headers := [] } = true ∧
    CSRF.skip cHealth { path := "/healthcheck", headers := [] } = false := by
  refine ⟨?_, by decide, by decide, by decide⟩
  intro c req
  unfold CSRF.skip
  rw [List.any_eq_true]
  constructor
  · rintro ⟨url, hmem, hmatch⟩
    exact ⟨url, hmem, (match_uri_iff req.path url).mp hmatch⟩
  · rintro ⟨url, hmem, hcase⟩
    exact ⟨url, hmem, (match_uri_iff req.path url).mpr hcase⟩

/-- C10: an empty string in the exempt list makes `skip` accept every
path that begins with `/`, because the boundary check for the empty entry
degenerates to a `/`-prefix test. -/
theorem claim_empty_exempt (c : CSRF) (req : ServiceRequest)
    (hmem : "" ∈ c.skip_urls) (rest : String)
    (hpath : req.path = "/" ++ rest) :
    c.skip req = true := by
  unfold CSRF.skip
  rw [List.any_eq_true]
  refine ⟨"", hmem, ?_⟩
  rw [match_uri_iff]
  refine Or.inr ⟨rest, ?_⟩
  rw [hpath]
  refine String.ext ?_
  simp [String.data_append]

/-- Configuration whose exempt list holds the empty string. -/
def cEmptyUrl : CSRF :=
  { skip_urls := [""], salt := [], effective := 0,
    header_name := "x-token" }

/-- C10 witness: with exempt list `[""]`, the path `/x` is skipped. -/
theorem claim_empty_exempt_witness :
    CSRF.skip cEmptyUrl { path := "/x", headers := [] } = true :=
  claim_empty_exempt cEmptyUrl { path := "/x", headers := [] }
    (by simp [cEmptyUrl]) "x" rfl

/-- C7: when `process` rejects, the assembled stage is independent of
the inner service — the short-circuit arm is built without ever invoking
it — and a single poll completes with `post` already applied to the
reject response. -/
theorem claim_reject_short_circuit (h : Handler)
    (service service2 : ServiceRequest → PollResult)
    (req : ServiceRequest) (res : ServiceResponse)
    (hskip : h.skip req = false) (hproc : h.process req = Sum.inl res) :
    Middleware.call h service req
      = HandlerFuture.errorHandlerFuture (Poll.ready (Except.ok res)) h ∧
    Middleware.call h service req = Middleware.call h service2 req ∧
    HandlerFuture.poll (Middleware.call h service req)
      = Poll.ready (Except.ok (h.post res)) := by
  have hcall : ∀ svc : ServiceRequest → PollResult,
      Middleware.call h svc req
        = HandlerFuture.errorHandlerFuture (Poll.ready (Except.ok res))
            h := by
    intro svc
    unfold Middleware.call
    simp [hskip, hproc]
  refine ⟨hcall service, (hcall service).trans (hcall service2).symm, ?_⟩
  rw [hcall service]
  rfl

/-- A handler that rejects every request with the 403 response. -/
def hReject : Handler :=
  { skip := fun _ => false, process := fun _ => Sum.inl forbiddenResponse,
    post := fun r => { r with body := r.body } }

/-- An inner service whose future never completes. -/
def svcNever : ServiceRequest → PollResult := fun _ => Poll.pending

/-- An inner service that completes immediately with `respOk`. -/
def svcReady : ServiceRequest → PollResult :=
  fun _ => Poll.ready (Except.ok respOk)

/-- A plain request with no headers. -/
def reqPlain : ServiceRequest := { path := "/p", headers := [] }

/-- C7 witness: the rejecting handler short-circuits a concrete request
identically over a never-ready and an immediately-ready inner service,
and one poll yields the post-processed 403. -/
theorem claim_reject_short_circuit_witness :
    Middleware.call hReject svcNever reqPlain
      = HandlerFuture.errorHandlerFuture
          (Poll.ready (Except.ok forbiddenResponse)) hReject ∧
    Middleware.call hReject svcNever reqPlain
      = Middleware.call hReject svcReady reqPlain ∧
    HandlerFuture.poll (Middleware.call hReject svcNever reqPlain)
      = Poll.ready (Except.ok (hReject.post forbiddenResponse)) :=
  claim_reject_short_circuit hReject svcNever svcReady reqPlain
    forbiddenResponse rfl rfl

/-- Tokens minted at distinct instants (in the `i64` range) are distinct
strings: the first sixteen hex characters encode the timestamp. -/
theorem token_time_inj (d : List Nat → List Nat) (salt : List Nat)
    (t1 t2 : Int) (hd : DigestModel d) (h1 : -(2 ^ 63) ≤ t1)
    (h2 : t1 < 2 ^ 63) (h3 : -(2 ^ 63) ≤ t2) (h4 : t2 < 2 ^ 63)
    (hne : t1 ≠ t2) : CSRF.token d salt t1 ≠ CSRF.token d salt t2 := by
  intro heq
  have hdec1 := token_decode d salt t1 hd
  have hdec2 := token_decode d salt t2 hd
  rw [heq, hdec2] at hdec1
  have hbytes : leBytes64 t2 ++ d (leBytes64 t2 ++ salt)
      = leBytes64 t1 ++ d (leBytes64 t1 ++ salt) :=
    Option.some_injective _ hdec1
  have hle : leBytes64 t2 = leBytes64 t1 :=
    List.append_inj_left hbytes
      ((leBytes64_length t2).trans (leBytes64_length t1).symm)
  exact hne (by
    have := congrArg fromLeSigned hle
    rw [fromLeSigned_leBytes64 t1 h1 h2, fromLeSigned_leBytes64 t2 h3 h4]
      at this
    omega)

/-- The token a client minted at millisecond 0 under `cFix`'s salt. -/
def tokSub : String := CSRF.token dHash cFix.salt 0

/-- The raw header bytes carrying `tokSub`. -/
def tokSubBytes : List Nat := tokSub.data.map Char.toNat

/-- A request to a protected path submitting `tokSub`. -/
def reqTok : ServiceRequest :=
  { path := "/p", headers := [(cFix.header_name, tokSubBytes)] }

/-- C9 counterexample: with the verifier's and the minter's clock both on
millisecond 0, the request carrying `tokSub` is admitted, the inner 200
response gets the configured header — but its value is byte-for-byte the
very token the client submitted, not a different one. -/
theorem claim_fresh_token_counterexample :
    headerValueToStr tokSubBytes = some tokSub ∧
    cFix.process dHash 0 reqTok = Sum.inr reqTok ∧
    getRespHeader (cFix.post dHash 0 respOk) cFix.header_name
      = some tokSub := by
  decide

/-- C9 amended: on a 2xx response `post` exposes the freshly minted
token under the configured header, and that value differs from the
submitted token whenever the response-time millisecond differs from the
submitted token's mint millisecond (a same-millisecond mint reproduces
the identical token). -/
theorem claim_fresh_token_amended (c : CSRF) (d : List Nat → List Nat)
    (resp : ServiceResponse) (tsub tpost : Int) (hd : DigestModel d)
    (hsuc : isSuccess resp.status = true)
    (hval : headerValueOk (c.generate_token d tpost) = true)
    (h1 : -(2 ^ 63) ≤ tsub) (h2 : tsub < 2 ^ 63)
    (h3 : -(2 ^ 63) ≤ tpost) (h4 : tpost < 2 ^ 63) (hne : tsub ≠ tpost) :
    getRespHeader (c.post d tpost resp) c.header_name
      = some (c.generate_token d tpost) ∧
    c.generate_token d tpost ≠ CSRF.token d c.salt tsub := by
  constructor
  · unfold CSRF.post
    simp only [hsuc, hval, if_pos rfl, if_true]
    simp [getRespHeader, insertHeader, List.find?]
  · exact token_time_inj d c.salt tpost tsub hd h3 h4 h1 h2
      (fun hx => hne hx.symm)

/-- C9 amended witness: a 200 response post-processed at millisecond 1
carries the fresh token, which differs from the millisecond-0 token. -/
theorem claim_fresh_token_amended_witness :
    getRespHeader (cFix.post dHash 1 respOk) cFix.header_name
      = some (cFix.generate_token dHash 1) ∧
    cFix.generate_token dHash 1 ≠ CSRF.token dHash cFix.salt 0 :=
  claim_fresh_token_amended cFix dHash respOk 0 1 dHash_model rfl
    (by decide) (by norm_num) (by norm_num) (by norm_num) (by norm_num)
    (by norm_num)

end ActixMW
